import Mathlib

/-!
# SDL2 Pong: the simulation step of `main.cpp`

A shallow embedding of the three per-frame state transformers of `main.cpp`
(`handleInput`, `moveBall`, `updateAI`) together with the properties the
specification states about them.

Modelling conventions.

* The module-level `int` variables of the program become the fields of
  `GameState`.  An `int` is a 32-bit two's complement integer: a state of the
  program has every field in `[-2147483648, 2147483647]` (`isInt32`), and every
  addition, subtraction and negation the functions perform on variables is
  followed by `wrapInt32`, the reduction modulo `2^32` into that range.  This is
  the value the compiled program stores when a signed operation overflows
  (the C++ standard itself leaves signed overflow undefined).  Where a
  theorem speaks of the mathematical value of such an operation it assumes
  that the value is an `int`.
* Expressions over the constants only (`SCREEN_HEIGHT - PADDLE_HEIGHT`,
  `PADDLE_HEIGHT / 2`, ...) are within range and carry no reduction.
* Integer division and remainder are the truncating C operators
  (`Int.tdiv`, `Int.tmod`).
* `rand()` is an input: `updateAI` takes the value the call would return.
  The C library guarantees `0 ≤ rand()`.
* `SDL_PollEvent` is an input: `handleInput` takes the list of events that
  the polling loop dequeues in this frame, in order.
* Audio cues (`Mix_PlayChannel`) do not touch the game state and are omitted.
-/

namespace Pong

/-! ## Machine integers -/

/-- The values of the C++ type `int` (32 bits, two's complement). -/
def isInt32 (x : Int) : Prop := -2147483648 ≤ x ∧ x ≤ 2147483647

instance (x : Int) : Decidable (isInt32 x) := by
  unfold isInt32; infer_instance

/-- The `int` that a 32-bit two's complement machine stores for the
mathematical result `x` of an operation: `x` reduced modulo `2^32` into
`[-2^31, 2^31 - 1]`. -/
def wrapInt32 (x : Int) : Int := (x + 2147483648) % 4294967296 - 2147483648

/-! ## Constants -/

def SCREEN_WIDTH : Int := 1080
def SCREEN_HEIGHT : Int := 720
def PADDLE_WIDTH : Int := 10
def PADDLE_HEIGHT : Int := 100
def PADDLE_SPEED : Int := 15
def BALL_SIZE : Int := 10

/-! ## State -/

/-- The mutable module-level variables of `main.cpp`. -/
structure GameState where
  playerPaddlePosY : Int
  aiPaddlePosY : Int
  ballPosX : Int
  ballPosY : Int
  ballVelX : Int
  ballVelY : Int
  playerScore : Int
  aiScore : Int
  deriving DecidableEq, Repr

/-- The states of the program: every variable holds an `int`. -/
def GameState.valid (s : GameState) : Prop :=
  isInt32 s.playerPaddlePosY ∧ isInt32 s.aiPaddlePosY ∧
  isInt32 s.ballPosX ∧ isInt32 s.ballPosY ∧
  isInt32 s.ballVelX ∧ isInt32 s.ballVelY ∧
  isInt32 s.playerScore ∧ isInt32 s.aiScore

instance (s : GameState) : Decidable s.valid := by
  unfold GameState.valid; infer_instance

/-- The values given by the initialisers of the module-level variables. -/
def initState : GameState where
  playerPaddlePosY := Int.tdiv (SCREEN_HEIGHT - PADDLE_HEIGHT) 2
  aiPaddlePosY := Int.tdiv (SCREEN_HEIGHT - PADDLE_HEIGHT) 2
  ballPosX := Int.tdiv SCREEN_WIDTH 2 - Int.tdiv BALL_SIZE 2
  ballPosY := Int.tdiv SCREEN_HEIGHT 2 - Int.tdiv BALL_SIZE 2
  ballVelX := -6
  ballVelY := -6
  playerScore := 0
  aiScore := 0

/-! ## Input handling -/

/-- The key symbols `handleInput` distinguishes. -/
inductive Keysym where
  | SDLK_UP
  | SDLK_DOWN
  | otherKey
  deriving DecidableEq, Repr

/-- The event kinds `handleInput` distinguishes: `SDL_QUIT`, `SDL_KEYDOWN`
with its key symbol, and every other event type (key release, mouse, ...). -/
inductive Event where
  | SDL_QUIT
  | SDL_KEYDOWN (sym : Keysym)
  | otherEvent
  deriving DecidableEq, Repr

/-- The `switch (e.key.keysym.sym)` of `handleInput`. -/
def handleKey (s : GameState) : Keysym → GameState
  | .SDLK_UP =>
    let s1 := { s with playerPaddlePosY := wrapInt32 (s.playerPaddlePosY - PADDLE_SPEED) }
    if s1.playerPaddlePosY < 0 then { s1 with playerPaddlePosY := 0 } else s1
  | .SDLK_DOWN =>
    let s1 := { s with playerPaddlePosY := wrapInt32 (s.playerPaddlePosY + PADDLE_SPEED) }
    if s1.playerPaddlePosY > SCREEN_HEIGHT - PADDLE_HEIGHT then
      { s1 with playerPaddlePosY := SCREEN_HEIGHT - PADDLE_HEIGHT }
    else s1
  | .otherKey => s

/-- One iteration of the polling loop of `handleInput`: the quit flag and the
state after the event `e` has been handled. -/
def handleEvent (quit : Bool) (s : GameState) : Event → Bool × GameState
  | .SDL_QUIT => (true, s)
  | .SDL_KEYDOWN sym => (quit, handleKey s sym)
  | .otherEvent => (quit, s)

/-- The function `handleInput`: the polling loop run over the events pending
in this frame. -/
def handleInput (quit : Bool) (s : GameState) : List Event → Bool × GameState
  | [] => (quit, s)
  | e :: es => handleInput (handleEvent quit s e).1 (handleEvent quit s e).2 es

/-! ## Ball physics -/

/-- The integration step: `ballPosX += ballVelX; ballPosY += ballVelY`. -/
def integrate (s : GameState) : GameState :=
  { s with
    ballPosX := wrapInt32 (s.ballPosX + s.ballVelX)
    ballPosY := wrapInt32 (s.ballPosY + s.ballVelY) }

/-- Bouncing off the top and bottom edges. -/
def wallCheck (s : GameState) : GameState :=
  if s.ballPosY < 0 ∨ wrapInt32 (s.ballPosY + BALL_SIZE) > SCREEN_HEIGHT then
    { s with ballVelY := wrapInt32 (-s.ballVelY) }
  else s

/-- Reset ball and scoring. -/
def exitCheck (s : GameState) : GameState :=
  if s.ballPosX < 0 then
    { s with
      aiScore := wrapInt32 (s.aiScore + 1)
      ballPosX := Int.tdiv SCREEN_WIDTH 2 - Int.tdiv BALL_SIZE 2
      ballPosY := Int.tdiv SCREEN_HEIGHT 2 - Int.tdiv BALL_SIZE 2
      ballVelX := 6 }
  else if wrapInt32 (s.ballPosX + BALL_SIZE) > SCREEN_WIDTH then
    { s with
      playerScore := wrapInt32 (s.playerScore + 1)
      ballPosX := Int.tdiv SCREEN_WIDTH 2 - Int.tdiv BALL_SIZE 2
      ballPosY := Int.tdiv SCREEN_HEIGHT 2 - Int.tdiv BALL_SIZE 2
      ballVelX := -6 }
  else s

/-- Collision detection with the player paddle. -/
def playerPaddleCheck (s : GameState) : GameState :=
  if s.ballPosX < PADDLE_WIDTH ∧
      s.ballPosY ≥ s.playerPaddlePosY ∧
      s.ballPosY ≤ wrapInt32 (s.playerPaddlePosY + PADDLE_HEIGHT) then
    { s with ballVelX := wrapInt32 (-s.ballVelX) }
  else s

/-- Collision detection with the AI paddle. -/
def aiPaddleCheck (s : GameState) : GameState :=
  if wrapInt32 (s.ballPosX + BALL_SIZE) > SCREEN_WIDTH - PADDLE_WIDTH ∧
      s.ballPosY ≥ s.aiPaddlePosY ∧
      s.ballPosY ≤ wrapInt32 (s.aiPaddlePosY + PADDLE_HEIGHT) then
    { s with ballVelX := wrapInt32 (-s.ballVelX) }
  else s

/-- The function `moveBall`: its five statements in program order. -/
def moveBall (s : GameState) : GameState :=
  aiPaddleCheck (playerPaddleCheck (exitCheck (wallCheck (integrate s))))

/-! ## AI controller -/

/-- The step drawn by `rand() % 8 + 1`, for the value `r` returned by
`rand()`; it lies in `[-6, 8]` for every `r`, so the addition cannot
overflow. -/
def aiStep (r : Int) : Int := Int.tmod r 8 + 1

/-- The function `updateAI`; `r` is the value `rand()` returns if this call
draws. -/
def updateAI (s : GameState) (r : Int) : GameState :=
  if s.ballPosY > wrapInt32 (s.aiPaddlePosY + Int.tdiv PADDLE_HEIGHT 2) then
    let s1 := { s with aiPaddlePosY := wrapInt32 (s.aiPaddlePosY + aiStep r) }
    if s1.aiPaddlePosY > SCREEN_HEIGHT - PADDLE_HEIGHT then
      { s1 with aiPaddlePosY := SCREEN_HEIGHT - PADDLE_HEIGHT }
    else s1
  else if s.ballPosY < wrapInt32 (s.aiPaddlePosY + Int.tdiv PADDLE_HEIGHT 2) then
    let s1 := { s with aiPaddlePosY := wrapInt32 (s.aiPaddlePosY - aiStep r) }
    if s1.aiPaddlePosY < 0 then { s1 with aiPaddlePosY := 0 } else s1
  else s

/-- The number of `rand()` calls one `updateAI` call makes from the state
`s`: one in each of the two branches that move the paddle, none when the ball
is level with the paddle centre. -/
def updateAIDraws (s : GameState) : Nat :=
  if s.ballPosY > wrapInt32 (s.aiPaddlePosY + Int.tdiv PADDLE_HEIGHT 2) then 1
  else if s.ballPosY < wrapInt32 (s.aiPaddlePosY + Int.tdiv PADDLE_HEIGHT 2) then 1
  else 0

/-- The sequence of `aiPaddlePosY` values seen before each call of a run of
`updateAI` calls and after the last one. -/
def aiTrace (s : GameState) : List Int → List Int
  | [] => [s.aiPaddlePosY]
  | r :: rs => s.aiPaddlePosY :: aiTrace (updateAI s r) rs

/-! ## Reachable states -/

/-- The states the program can be in: the start state, closed under the three
state transformers the main loop calls, with any pending events and any
result of `rand()`. -/
inductive Reachable : GameState → Prop where
  | start : Reachable initState
  | input (quit : Bool) (evs : List Event) {s : GameState} :
      Reachable s → Reachable (handleInput quit s evs).2
  | ball {s : GameState} : Reachable s → Reachable (moveBall s)
  | ai (r : Int) {s : GameState} : 0 ≤ r → Reachable s → Reachable (updateAI s r)

/-- The paddle clamp range `[0, SCREEN_HEIGHT - PADDLE_HEIGHT]`. -/
def paddleInRange (y : Int) : Prop := 0 ≤ y ∧ y ≤ SCREEN_HEIGHT - PADDLE_HEIGHT

instance (y : Int) : Decidable (paddleInRange y) := by
  unfold paddleInRange; infer_instance

/-- The wall test of `moveBall` as evaluated in the step that starts at `s`:
the integrated ball is above the top edge or below the bottom edge. -/
def wallFires (s : GameState) : Prop :=
  (integrate s).ballPosY < 0 ∨
    wrapInt32 ((integrate s).ballPosY + BALL_SIZE) > SCREEN_HEIGHT

instance (s : GameState) : Decidable (wallFires s) := by
  unfold wallFires; infer_instance

/-- What holds of the ball in every reachable state: both velocity components
are `6` or `-6`, the ball is inside `[0, 1070] × [-5, 715]`, its `y` is `1`
modulo `6`, and outside `[0, 710]` the vertical velocity points inwards. -/
def ballInv (s : GameState) : Prop :=
  (s.ballVelX = 6 ∨ s.ballVelX = -6) ∧ (s.ballVelY = 6 ∨ s.ballVelY = -6) ∧
  0 ≤ s.ballPosX ∧ s.ballPosX ≤ 1070 ∧ -5 ≤ s.ballPosY ∧ s.ballPosY ≤ 715 ∧
  s.ballPosY % 6 = 1 ∧
  (s.ballPosY < 0 → s.ballVelY = 6) ∧ (s.ballPosY > 710 → s.ballVelY = -6)

/-- The ball is above the paddle centre at each call of a run of `updateAI`
calls. -/
def ballAboveAtEachCall (s : GameState) : List Int → Prop
  | [] => True
  | r :: rs =>
    s.ballPosY < s.aiPaddlePosY + Int.tdiv PADDLE_HEIGHT 2 ∧ ballAboveAtEachCall (updateAI s r) rs

/-! ## Basic facts -/

theorem initState_eq :
    initState = ⟨310, 310, 535, 355, -6, -6, 0, 0⟩ := by decide

theorem centre_x : Int.tdiv SCREEN_WIDTH 2 - Int.tdiv BALL_SIZE 2 = 535 := by decide

theorem centre_y : Int.tdiv SCREEN_HEIGHT 2 - Int.tdiv BALL_SIZE 2 = 355 := by decide

theorem half_paddle : Int.tdiv PADDLE_HEIGHT 2 = 50 := by decide

theorem paddle_limit : SCREEN_HEIGHT - PADDLE_HEIGHT = 620 := by decide

/-- An operation whose mathematical result is an `int` stores that result. -/
theorem wrapInt32_eq {x : Int} (h : isInt32 x) : wrapInt32 x = x := by
  unfold isInt32 at h
  unfold wrapInt32
  omega

/-- What is stored is always an `int`. -/
theorem wrapInt32_isInt32 (x : Int) : isInt32 (wrapInt32 x) := by
  unfold isInt32 wrapInt32
  omega

/-- For a non-negative result of `rand()` the step is between 1 and 8. -/
theorem aiStep_bounds (r : Int) (h : 0 ≤ r) : 1 ≤ aiStep r ∧ aiStep r ≤ 8 := by
  unfold aiStep
  rw [Int.tmod_eq_emod h (by decide)]
  omega

/-! ### Frame lemmas for `handleInput` -/

theorem handleKey_up (s : GameState) (h : isInt32 (s.playerPaddlePosY - 15)) :
    (handleKey s .SDLK_UP).playerPaddlePosY = max (s.playerPaddlePosY - 15) 0 := by
  simp only [handleKey, PADDLE_SPEED, wrapInt32_eq h]
  split <;> simp <;> omega

theorem handleKey_down (s : GameState) (h : isInt32 (s.playerPaddlePosY + 15)) :
    (handleKey s .SDLK_DOWN).playerPaddlePosY = min (s.playerPaddlePosY + 15) 620 := by
  simp only [handleKey, PADDLE_SPEED, SCREEN_HEIGHT, PADDLE_HEIGHT, wrapInt32_eq h]
  split <;> simp <;> omega

theorem handleKey_frame (s : GameState) (k : Keysym) :
    handleKey s k = { s with playerPaddlePosY := (handleKey s k).playerPaddlePosY } := by
  cases k <;> simp only [handleKey]
  · split <;> rfl
  · split <;> rfl

theorem handleEvent_frame (q : Bool) (s : GameState) (e : Event) :
    (handleEvent q s e).2 =
      { s with playerPaddlePosY := (handleEvent q s e).2.playerPaddlePosY } := by
  cases e with
  | SDL_QUIT => rfl
  | SDL_KEYDOWN k => exact handleKey_frame s k
  | otherEvent => rfl

theorem handleInput_frame (evs : List Event) : ∀ (q : Bool) (s : GameState),
    (handleInput q s evs).2 =
      { s with playerPaddlePosY := (handleInput q s evs).2.playerPaddlePosY } := by
  induction evs with
  | nil => intro q s; rfl
  | cons e es ih =>
    intro q s
    simp only [handleInput]
    rw [ih (handleEvent q s e).1 (handleEvent q s e).2]
    generalize (handleInput (handleEvent q s e).1 (handleEvent q s e).2 es).2.playerPaddlePosY = y
    rw [handleEvent_frame q s e]

theorem handleKey_range (s : GameState) (k : Keysym)
    (h : paddleInRange s.playerPaddlePosY) :
    paddleInRange (handleKey s k).playerPaddlePosY := by
  unfold paddleInRange at *
  rw [paddle_limit] at *
  cases k with
  | SDLK_UP =>
    rw [handleKey_up s (by unfold isInt32; omega)]
    omega
  | SDLK_DOWN =>
    rw [handleKey_down s (by unfold isInt32; omega)]
    omega
  | otherKey => exact h

theorem handleEvent_range (q : Bool) (s : GameState) (e : Event)
    (h : paddleInRange s.playerPaddlePosY) :
    paddleInRange (handleEvent q s e).2.playerPaddlePosY := by
  cases e with
  | SDL_QUIT => exact h
  | SDL_KEYDOWN k => exact handleKey_range s k h
  | otherEvent => exact h

theorem handleInput_range (evs : List Event) : ∀ (q : Bool) (s : GameState),
    paddleInRange s.playerPaddlePosY →
    paddleInRange (handleInput q s evs).2.playerPaddlePosY := by
  induction evs with
  | nil => intro q s h; exact h
  | cons e es ih =>
    intro q s h
    exact ih _ _ (handleEvent_range q s e h)

theorem handleInput_quit (evs : List Event) : ∀ (q : Bool) (s : GameState),
    (handleInput q s evs).1 = (q || decide (Event.SDL_QUIT ∈ evs)) := by
  induction evs with
  | nil => intro q s; simp [handleInput]
  | cons e es ih =>
    intro q s
    simp only [handleInput]
    rw [ih]
    cases e <;> simp [handleEvent]

/-! ### Frame lemmas for `updateAI` -/

theorem updateAI_eq (s : GameState) (r : Int) :
    updateAI s r =
      if s.ballPosY > wrapInt32 (s.aiPaddlePosY + 50) then
        if wrapInt32 (s.aiPaddlePosY + aiStep r) > 620 then { s with aiPaddlePosY := 620 }
        else { s with aiPaddlePosY := wrapInt32 (s.aiPaddlePosY + aiStep r) }
      else if s.ballPosY < wrapInt32 (s.aiPaddlePosY + 50) then
        if wrapInt32 (s.aiPaddlePosY - aiStep r) < 0 then { s with aiPaddlePosY := 0 }
        else { s with aiPaddlePosY := wrapInt32 (s.aiPaddlePosY - aiStep r) }
      else s := rfl

/-- The paddle position after `updateAI` when the ball is below the centre
and neither addition overflows. -/
theorem updateAI_down (s : GameState) (r : Int)
    (hc : isInt32 (s.aiPaddlePosY + 50)) (hk : isInt32 (s.aiPaddlePosY + aiStep r))
    (h : s.ballPosY > s.aiPaddlePosY + 50) :
    (updateAI s r).aiPaddlePosY = min (s.aiPaddlePosY + aiStep r) 620 := by
  rw [updateAI_eq, wrapInt32_eq hc, wrapInt32_eq hk, if_pos h]
  split <;> simp <;> omega

/-- The paddle position after `updateAI` when the ball is above the centre
and neither operation overflows. -/
theorem updateAI_up (s : GameState) (r : Int)
    (hc : isInt32 (s.aiPaddlePosY + 50)) (hk : isInt32 (s.aiPaddlePosY - aiStep r))
    (h : s.ballPosY < s.aiPaddlePosY + 50) :
    (updateAI s r).aiPaddlePosY = max (s.aiPaddlePosY - aiStep r) 0 := by
  rw [updateAI_eq, wrapInt32_eq hc, wrapInt32_eq hk, if_neg (by omega), if_pos h]
  split <;> simp <;> omega

theorem updateAI_level (s : GameState) (r : Int)
    (hc : isInt32 (s.aiPaddlePosY + 50)) (h : s.ballPosY = s.aiPaddlePosY + 50) :
    updateAI s r = s := by
  rw [updateAI_eq, wrapInt32_eq hc, if_neg (by omega), if_neg (by omega)]

theorem updateAI_frame (s : GameState) (r : Int) :
    updateAI s r = { s with aiPaddlePosY := (updateAI s r).aiPaddlePosY } := by
  rw [updateAI_eq]
  split
  · split <;> rfl
  · split
    · split <;> rfl
    · rfl

theorem updateAI_range (s : GameState) (r : Int) (hr : 0 ≤ r)
    (h : paddleInRange s.aiPaddlePosY) :
    paddleInRange (updateAI s r).aiPaddlePosY := by
  have hk := aiStep_bounds r hr
  unfold paddleInRange at *
  rw [paddle_limit] at *
  have hc : isInt32 (s.aiPaddlePosY + 50) := by unfold isInt32; omega
  rcases lt_trichotomy s.ballPosY (s.aiPaddlePosY + 50) with hlt | heq | hgt
  · rw [updateAI_up s r hc (by unfold isInt32; omega) hlt]; omega
  · rw [updateAI_level s r hc heq]; exact h
  · rw [updateAI_down s r hc (by unfold isInt32; omega) hgt]; omega

theorem moveBall_paddles (s : GameState) :
    (moveBall s).playerPaddlePosY = s.playerPaddlePosY ∧
    (moveBall s).aiPaddlePosY = s.aiPaddlePosY := by
  simp only [moveBall, aiPaddleCheck, playerPaddleCheck, exitCheck, wallCheck, integrate]
  constructor <;> repeat (split <;> try rfl)

/-- Both paddles are inside the clamp range in every reachable state. -/
theorem reachable_paddles {s : GameState} (h : Reachable s) :
    paddleInRange s.playerPaddlePosY ∧ paddleInRange s.aiPaddlePosY := by
  induction h with
  | start => constructor <;> decide
  | input q evs _ ih =>
    refine ⟨handleInput_range evs q _ ih.1, ?_⟩
    rw [handleInput_frame]; exact ih.2
  | ball _ ih =>
    rw [(moveBall_paddles _).1, (moveBall_paddles _).2]; exact ih
  | ai r hr _ ih =>
    refine ⟨?_, updateAI_range _ r hr ih.2⟩
    rw [updateAI_frame]; exact ih.1

/-! ### The ball step by cases -/

theorem wallFires_def (s : GameState) :
    wallFires s ↔
      wrapInt32 (s.ballPosY + s.ballVelY) < 0 ∨
        wrapInt32 (wrapInt32 (s.ballPosY + s.ballVelY) + 10) > 720 := Iff.rfl

/-- The wall test in terms of the mathematical sums, when they are `int`s. -/
theorem wallFires_iff (s : GameState) (hy : isInt32 (s.ballPosY + s.ballVelY))
    (hy10 : isInt32 (s.ballPosY + s.ballVelY + 10)) :
    wallFires s ↔ s.ballPosY + s.ballVelY < 0 ∨ s.ballPosY + s.ballVelY + 10 > 720 := by
  rw [wallFires_def, wrapInt32_eq hy, wrapInt32_eq hy10]

theorem wallCheck_eq (s : GameState) :
    wallCheck s =
      if s.ballPosY < 0 ∨ wrapInt32 (s.ballPosY + 10) > 720 then
        { s with ballVelY := wrapInt32 (-s.ballVelY) }
      else s := rfl

theorem exitCheck_eq (s : GameState) :
    exitCheck s =
      if s.ballPosX < 0 then
        { s with aiScore := wrapInt32 (s.aiScore + 1), ballPosX := 535, ballPosY := 355,
                 ballVelX := 6 }
      else if wrapInt32 (s.ballPosX + 10) > 1080 then
        { s with playerScore := wrapInt32 (s.playerScore + 1), ballPosX := 535,
                 ballPosY := 355, ballVelX := -6 }
      else s := rfl

theorem playerPaddleCheck_eq (s : GameState) :
    playerPaddleCheck s =
      if s.ballPosX < 10 ∧ s.ballPosY ≥ s.playerPaddlePosY ∧
          s.ballPosY ≤ wrapInt32 (s.playerPaddlePosY + 100) then
        { s with ballVelX := wrapInt32 (-s.ballVelX) }
      else s := rfl

theorem aiPaddleCheck_eq (s : GameState) :
    aiPaddleCheck s =
      if wrapInt32 (s.ballPosX + 10) > 1070 ∧ s.ballPosY ≥ s.aiPaddlePosY ∧
          s.ballPosY ≤ wrapInt32 (s.aiPaddlePosY + 100) then
        { s with ballVelX := wrapInt32 (-s.ballVelX) }
      else s := rfl

/-- The ball step when the integrated ball has left the arena on the left. -/
theorem moveBall_exit_left (s : GameState) (h : wrapInt32 (s.ballPosX + s.ballVelX) < 0) :
    moveBall s =
      { s with
        aiScore := wrapInt32 (s.aiScore + 1), ballPosX := 535, ballPosY := 355, ballVelX := 6,
        ballVelY := if wallFires s then wrapInt32 (-s.ballVelY) else s.ballVelY } := by
  simp only [moveBall, aiPaddleCheck_eq, playerPaddleCheck_eq, exitCheck_eq, wallCheck_eq,
    integrate, wallFires_def]
  have e : wrapInt32 545 = 545 := by decide
  by_cases hw : wrapInt32 (s.ballPosY + s.ballVelY) < 0 ∨
      wrapInt32 (wrapInt32 (s.ballPosY + s.ballVelY) + 10) > 720
  · simp [hw, h, e]
  · simp [hw, h, e]

/-- The ball step when the integrated ball has left the arena on the right. -/
theorem moveBall_exit_right (s : GameState)
    (h0 : ¬ wrapInt32 (s.ballPosX + s.ballVelX) < 0)
    (h1 : wrapInt32 (wrapInt32 (s.ballPosX + s.ballVelX) + 10) > 1080) :
    moveBall s =
      { s with
        playerScore := wrapInt32 (s.playerScore + 1), ballPosX := 535, ballPosY := 355,
        ballVelX := -6,
        ballVelY := if wallFires s then wrapInt32 (-s.ballVelY) else s.ballVelY } := by
  simp only [moveBall, aiPaddleCheck_eq, playerPaddleCheck_eq, exitCheck_eq, wallCheck_eq,
    integrate, wallFires_def]
  have e : wrapInt32 545 = 545 := by decide
  by_cases hw : wrapInt32 (s.ballPosY + s.ballVelY) < 0 ∨
      wrapInt32 (wrapInt32 (s.ballPosY + s.ballVelY) + 10) > 720
  · simp [hw, h0, h1, e]
  · simp [hw, h0, h1, e]

theorem wallCheck_upd (s : GameState) :
    wallCheck s =
      { s with
        ballVelY := if s.ballPosY < 0 ∨ wrapInt32 (s.ballPosY + 10) > 720
                    then wrapInt32 (-s.ballVelY) else s.ballVelY } := by
  by_cases h : s.ballPosY < 0 ∨ wrapInt32 (s.ballPosY + 10) > 720
  · rw [wallCheck_eq, if_pos h, if_pos h]
  · rw [wallCheck_eq, if_neg h, if_neg h]

theorem playerPaddleCheck_upd (s : GameState) :
    playerPaddleCheck s =
      { s with
        ballVelX := if s.ballPosX < 10 ∧ s.ballPosY ≥ s.playerPaddlePosY ∧
                        s.ballPosY ≤ wrapInt32 (s.playerPaddlePosY + 100)
                    then wrapInt32 (-s.ballVelX) else s.ballVelX } := by
  by_cases h : s.ballPosX < 10 ∧ s.ballPosY ≥ s.playerPaddlePosY ∧
      s.ballPosY ≤ wrapInt32 (s.playerPaddlePosY + 100)
  · rw [playerPaddleCheck_eq, if_pos h, if_pos h]
  · rw [playerPaddleCheck_eq, if_neg h, if_neg h]

theorem aiPaddleCheck_upd (s : GameState) :
    aiPaddleCheck s =
      { s with
        ballVelX := if wrapInt32 (s.ballPosX + 10) > 1070 ∧ s.ballPosY ≥ s.aiPaddlePosY ∧
                        s.ballPosY ≤ wrapInt32 (s.aiPaddlePosY + 100)
                    then wrapInt32 (-s.ballVelX) else s.ballVelX } := by
  by_cases h : wrapInt32 (s.ballPosX + 10) > 1070 ∧ s.ballPosY ≥ s.aiPaddlePosY ∧
      s.ballPosY ≤ wrapInt32 (s.aiPaddlePosY + 100)
  · rw [aiPaddleCheck_eq, if_pos h, if_pos h]
  · rw [aiPaddleCheck_eq, if_neg h, if_neg h]

/-- The ball step when the integrated ball stays inside the arena
horizontally. -/
theorem moveBall_no_exit (s : GameState)
    (h0 : ¬ wrapInt32 (s.ballPosX + s.ballVelX) < 0)
    (h1 : ¬ wrapInt32 (wrapInt32 (s.ballPosX + s.ballVelX) + 10) > 1080) :
    moveBall s =
      { s with
        ballPosX := wrapInt32 (s.ballPosX + s.ballVelX),
        ballPosY := wrapInt32 (s.ballPosY + s.ballVelY),
        ballVelX :=
          if (wrapInt32 (s.ballPosX + s.ballVelX) < 10 ∧
                s.playerPaddlePosY ≤ wrapInt32 (s.ballPosY + s.ballVelY) ∧
                wrapInt32 (s.ballPosY + s.ballVelY) ≤ wrapInt32 (s.playerPaddlePosY + 100)) ∨
              (wrapInt32 (wrapInt32 (s.ballPosX + s.ballVelX) + 10) > 1070 ∧
                s.aiPaddlePosY ≤ wrapInt32 (s.ballPosY + s.ballVelY) ∧
                wrapInt32 (s.ballPosY + s.ballVelY) ≤ wrapInt32 (s.aiPaddlePosY + 100))
          then wrapInt32 (-s.ballVelX) else s.ballVelX,
        ballVelY := if wallFires s then wrapInt32 (-s.ballVelY) else s.ballVelY } := by
  have hx : wrapInt32 (s.ballPosX + s.ballVelX) < 10 →
      ¬ wrapInt32 (wrapInt32 (s.ballPosX + s.ballVelX) + 10) > 1070 := by
    intro hlt
    rw [wrapInt32_eq (x := wrapInt32 (s.ballPosX + s.ballVelX) + 10) (by unfold isInt32; omega)]
    omega
  have e : exitCheck (wallCheck (integrate s)) = wallCheck (integrate s) := by
    rw [exitCheck_eq, if_neg (by rw [wallCheck_upd]; exact h0),
      if_neg (by rw [wallCheck_upd]; exact h1)]
  rw [moveBall, e, aiPaddleCheck_upd, playerPaddleCheck_upd, wallCheck_upd]
  simp only [integrate, wallFires_def, GameState.mk.injEq, true_and, and_true, ge_iff_le]
  by_cases hA : (wrapInt32 (s.ballPosX + s.ballVelX) < 10 ∧
      s.playerPaddlePosY ≤ wrapInt32 (s.ballPosY + s.ballVelY) ∧
      wrapInt32 (s.ballPosY + s.ballVelY) ≤ wrapInt32 (s.playerPaddlePosY + 100))
  · have hB : ¬ (wrapInt32 (wrapInt32 (s.ballPosX + s.ballVelX) + 10) > 1070 ∧
        s.aiPaddlePosY ≤ wrapInt32 (s.ballPosY + s.ballVelY) ∧
        wrapInt32 (s.ballPosY + s.ballVelY) ≤ wrapInt32 (s.aiPaddlePosY + 100)) :=
      fun hB => hx hA.1 hB.1
    rw [if_neg hB, if_pos hA, if_pos (Or.inl hA)]
  · by_cases hB : (wrapInt32 (wrapInt32 (s.ballPosX + s.ballVelX) + 10) > 1070 ∧
        s.aiPaddlePosY ≤ wrapInt32 (s.ballPosY + s.ballVelY) ∧
        wrapInt32 (s.ballPosY + s.ballVelY) ≤ wrapInt32 (s.aiPaddlePosY + 100))
    · rw [if_pos hB, if_neg hA, if_pos (Or.inr hB)]
    · rw [if_neg hB, if_neg hA, if_neg (by rintro (h | h); exact hA h; exact hB h)]

theorem moveBall_ballVelY (s : GameState) :
    (moveBall s).ballVelY = if wallFires s then wrapInt32 (-s.ballVelY) else s.ballVelY := by
  by_cases hl : wrapInt32 (s.ballPosX + s.ballVelX) < 0
  · rw [moveBall_exit_left s hl]
  · by_cases hr : wrapInt32 (wrapInt32 (s.ballPosX + s.ballVelX) + 10) > 1080
    · rw [moveBall_exit_right s hl hr]
    · rw [moveBall_no_exit s hl hr]

theorem moveBall_ballPosY (s : GameState) :
    (moveBall s).ballPosY = 355 ∨
      (moveBall s).ballPosY = wrapInt32 (s.ballPosY + s.ballVelY) := by
  by_cases hl : wrapInt32 (s.ballPosX + s.ballVelX) < 0
  · rw [moveBall_exit_left s hl]; exact Or.inl rfl
  · by_cases hr : wrapInt32 (wrapInt32 (s.ballPosX + s.ballVelX) + 10) > 1080
    · rw [moveBall_exit_right s hl hr]; exact Or.inl rfl
    · rw [moveBall_no_exit s hl hr]; exact Or.inr rfl

/-! ### The ball invariant -/

theorem ballInv_moveBall (s : GameState) (h : ballInv s) : ballInv (moveBall s) := by
  obtain ⟨hvx, hvy, hx0, hx1, hy0, hy1, hm, hlo, hhi⟩ := h
  have ex := wrapInt32_eq (x := s.ballPosX + s.ballVelX) (by unfold isInt32; omega)
  have ex10 := wrapInt32_eq (x := s.ballPosX + s.ballVelX + 10) (by unfold isInt32; omega)
  have ey := wrapInt32_eq (x := s.ballPosY + s.ballVelY) (by unfold isInt32; omega)
  have ey10 := wrapInt32_eq (x := s.ballPosY + s.ballVelY + 10) (by unfold isInt32; omega)
  have nvx := wrapInt32_eq (x := -s.ballVelX) (by unfold isInt32; omega)
  have nvy := wrapInt32_eq (x := -s.ballVelY) (by unfold isInt32; omega)
  by_cases hl : wrapInt32 (s.ballPosX + s.ballVelX) < 0
  · rw [moveBall_exit_left s hl]
    simp only [ballInv, wallFires_def, ey, ey10, nvy]
    refine ⟨?_, ?_, ?_, ?_, ?_, ?_, ?_, ?_, ?_⟩ <;> (try split_ifs) <;> first | omega | simp
  · by_cases hr : wrapInt32 (wrapInt32 (s.ballPosX + s.ballVelX) + 10) > 1080
    · rw [moveBall_exit_right s hl hr]
      simp only [ballInv, wallFires_def, ey, ey10, nvy]
      refine ⟨?_, ?_, ?_, ?_, ?_, ?_, ?_, ?_, ?_⟩ <;> (try split_ifs) <;> first | omega | simp
    · rw [moveBall_no_exit s hl hr]
      rw [ex] at hl hr
      rw [ex10] at hr
      simp only [ballInv, wallFires_def, ex, ex10, ey, ey10, nvx, nvy]
      refine ⟨?_, ?_, ?_, ?_, ?_, ?_, ?_, ?_, ?_⟩ <;> (try split_ifs) <;> omega

theorem ballInv_handleInput (q : Bool) (s : GameState) (evs : List Event) (h : ballInv s) :
    ballInv (handleInput q s evs).2 := by
  rw [handleInput_frame]; exact h

theorem ballInv_updateAI (s : GameState) (r : Int) (h : ballInv s) :
    ballInv (updateAI s r) := by
  rw [updateAI_frame]; exact h

theorem reachable_ballInv {s : GameState} (h : Reachable s) : ballInv s := by
  induction h with
  | start => simp [ballInv, initState_eq]
  | input q evs _ ih => exact ballInv_handleInput q _ evs ih
  | ball _ ih => exact ballInv_moveBall _ ih
  | ai r _ _ ih => exact ballInv_updateAI _ r ih

theorem wallFires_handleInput (q : Bool) (s : GameState) (evs : List Event) :
    wallFires (handleInput q s evs).2 ↔ wallFires s := by
  rw [handleInput_frame]; exact Iff.rfl

theorem wallFires_updateAI (s : GameState) (r : Int) :
    wallFires (updateAI s r) ↔ wallFires s := by
  rw [updateAI_frame]; exact Iff.rfl

/-- Under the ball invariant the wall test is decided by the mathematical
sums. -/
theorem ballInv_wallFires (s : GameState) (h : ballInv s) :
    wallFires s ↔ s.ballPosY + s.ballVelY < 0 ∨ s.ballPosY + s.ballVelY + 10 > 720 := by
  obtain ⟨-, hvy, -, -, hy0, hy1, -⟩ := h
  exact wallFires_iff s (by unfold isInt32; omega) (by unfold isInt32; omega)

/-- Under the ball invariant the wall test never holds of the state right
after a step in which it held. -/
theorem ballInv_no_double_bounce (s : GameState) (h : ballInv s) :
    ¬ wallFires (moveBall s) ∨ ¬ wallFires s := by
  have h2 := ballInv_moveBall s h
  rw [ballInv_wallFires s h, ballInv_wallFires _ h2]
  have e := moveBall_ballVelY s
  have e2 := moveBall_ballPosY s
  simp only [ballInv_wallFires s h] at e
  obtain ⟨hvx, hvy, hx0, hx1, hy0, hy1, hm, hlo, hhi⟩ := h
  obtain ⟨-, kvy, -, -, ky0, ky1, km, klo, khi⟩ := h2
  rw [wrapInt32_eq (x := s.ballPosY + s.ballVelY) (by unfold isInt32; omega)] at e2
  rw [wrapInt32_eq (x := -s.ballVelY) (by unfold isInt32; omega)] at e
  by_cases hw : s.ballPosY + s.ballVelY < 0 ∨ s.ballPosY + s.ballVelY + 10 > 720
  · left
    rw [if_pos hw] at e
    omega
  · right; exact hw

/-- The first `59` ball steps from the start state: the ball moves by
`(-6, -6)` in each step and nothing else changes. -/
theorem first_descent (n : Nat) (hn : n ≤ 59) :
    moveBall^[n] initState = ⟨310, 310, 535 - 6 * n, 355 - 6 * n, -6, -6, 0, 0⟩ := by
  induction n with
  | zero => decide
  | succ n ih =>
    rw [Function.iterate_succ_apply', ih (by omega)]
    have ex := wrapInt32_eq (x := (535 : Int) - 6 * n + -6) (by unfold isInt32; omega)
    have ex10 := wrapInt32_eq (x := (535 : Int) - 6 * n + -6 + 10) (by unfold isInt32; omega)
    have ey := wrapInt32_eq (x := (355 : Int) - 6 * n + -6) (by unfold isInt32; omega)
    have ey10 := wrapInt32_eq (x := (355 : Int) - 6 * n + -6 + 10) (by unfold isInt32; omega)
    rw [moveBall_no_exit _ (by dsimp only; rw [ex]; omega)
      (by dsimp only; rw [ex, ex10]; omega)]
    simp only [wallFires_def, ex, ex10, ey, ey10]
    rw [if_neg (by omega), if_neg (by omega)]
    simp only [GameState.mk.injEq, true_and, and_true]
    constructor <;> (push_cast; omega)

/-! ### The functions map states of the program to states of the program -/

theorem moveBall_valid (s : GameState) (h : s.valid) : (moveBall s).valid := by
  obtain ⟨h1, h2, h3, h4, h5, h6, h7, h8⟩ := h
  have hvy : isInt32 (if wallFires s then wrapInt32 (-s.ballVelY) else s.ballVelY) := by
    split_ifs
    · exact wrapInt32_isInt32 _
    · exact h6
  by_cases hl : wrapInt32 (s.ballPosX + s.ballVelX) < 0
  · rw [moveBall_exit_left s hl]
    exact ⟨h1, h2, (by decide : isInt32 535), (by decide : isInt32 355),
      (by decide : isInt32 6), hvy, h7, wrapInt32_isInt32 _⟩
  · by_cases hr : wrapInt32 (wrapInt32 (s.ballPosX + s.ballVelX) + 10) > 1080
    · rw [moveBall_exit_right s hl hr]
      exact ⟨h1, h2, (by decide : isInt32 535), (by decide : isInt32 355),
        (by decide : isInt32 (-6)), hvy, wrapInt32_isInt32 _, h8⟩
    · rw [moveBall_no_exit s hl hr]
      refine ⟨h1, h2, wrapInt32_isInt32 _, wrapInt32_isInt32 _, ?_, hvy, h7, h8⟩
      dsimp only
      split_ifs
      · exact wrapInt32_isInt32 _
      · exact h5

theorem updateAI_valid (s : GameState) (r : Int) (h : s.valid) : (updateAI s r).valid := by
  obtain ⟨h1, h2, h3, h4, h5, h6, h7, h8⟩ := h
  rw [updateAI_eq]
  split_ifs
  · exact ⟨h1, (by decide : isInt32 620), h3, h4, h5, h6, h7, h8⟩
  · exact ⟨h1, wrapInt32_isInt32 _, h3, h4, h5, h6, h7, h8⟩
  · exact ⟨h1, (by decide : isInt32 0), h3, h4, h5, h6, h7, h8⟩
  · exact ⟨h1, wrapInt32_isInt32 _, h3, h4, h5, h6, h7, h8⟩
  · exact ⟨h1, h2, h3, h4, h5, h6, h7, h8⟩

theorem handleKey_valid (s : GameState) (k : Keysym) (h : s.valid) : (handleKey s k).valid := by
  obtain ⟨h1, h2, h3, h4, h5, h6, h7, h8⟩ := h
  cases k <;> simp only [handleKey]
  · split_ifs
    · exact ⟨(by decide : isInt32 0), h2, h3, h4, h5, h6, h7, h8⟩
    · exact ⟨wrapInt32_isInt32 _, h2, h3, h4, h5, h6, h7, h8⟩
  · split_ifs
    · exact ⟨(by decide : isInt32 (SCREEN_HEIGHT - PADDLE_HEIGHT)), h2, h3, h4, h5, h6, h7, h8⟩
    · exact ⟨wrapInt32_isInt32 _, h2, h3, h4, h5, h6, h7, h8⟩
  · exact ⟨h1, h2, h3, h4, h5, h6, h7, h8⟩

theorem handleInput_valid (evs : List Event) : ∀ (q : Bool) (s : GameState),
    s.valid → (handleInput q s evs).2.valid := by
  induction evs with
  | nil => intro q s h; exact h
  | cons e es ih =>
    intro q s h
    refine ih _ _ ?_
    cases e with
    | SDL_QUIT => exact h
    | SDL_KEYDOWN k => exact handleKey_valid s k h
    | otherEvent => exact h

/-- Every reachable state is a state of the program. -/
theorem reachable_valid {s : GameState} (h : Reachable s) : s.valid := by
  induction h with
  | start => decide
  | input q evs _ ih => exact handleInput_valid evs q _ ih
  | ball _ ih => exact moveBall_valid _ ih
  | ai r _ _ ih => exact updateAI_valid _ r ih

/-! ## The ball step -/

/-- C2 as stated fails for a score at the top of the `int` range.  From the
state of the specification's scenario with `aiScore = 2147483647` the ball leaves
on the left and `aiScore++` stores `-2147483648`, not `aiScore + 1`; likewise
`playerScore++` on a right exit. -/
theorem scoring_reset_counterexample :
    GameState.valid ⟨30, 310, 5, 50, -6, -6, 0, 2147483647⟩ ∧
    (5 : Int) + (-6) < 0 ∧
    (moveBall ⟨30, 310, 5, 50, -6, -6, 0, 2147483647⟩).aiScore = -2147483648 ∧
    (moveBall ⟨30, 310, 5, 50, -6, -6, 0, 2147483647⟩).aiScore ≠ 2147483647 + 1 ∧
    GameState.valid ⟨310, 300, 1066, 340, 6, 6, 2147483647, 3⟩ ∧
    ((0 : Int) ≤ 1066 + 6 ∧ (1066 : Int) + 6 + 10 > 1080) ∧
    (moveBall ⟨310, 300, 1066, 340, 6, 6, 2147483647, 3⟩).playerScore = -2147483648 ∧
    (moveBall ⟨310, 300, 1066, 340, 6, 6, 2147483647, 3⟩).playerScore ≠ 2147483647 + 1 := by
  decide

/-- C2, amended (scoring reset).  For every state in which the integration
`x + vx` and the increment of the score do not overflow: if the integrated
ball has left the arena on the left (`x + vx < 0`), one `moveBall` step adds
exactly one to `aiScore`, leaves `playerScore` alone, puts the ball at
`((W - s)/2, (H - s)/2) = (535, 355)` and sets `ballVelX = 6`; if it has left on
the right (`0 ≤ x + vx` and `x + vx + 10 > 1080`, the sum `x + vx + 10` being an
`int`), the step adds exactly one to `playerScore`, leaves `aiScore` alone, puts
the ball at `(535, 355)` and sets `ballVelX = -6`.  No assumption is made on the
paddles, so the reset wins over the paddle checks.  The scenario of the
specification (ball `(5, 50)`, velocity `(-6, -6)`, player paddle at `30`)
evaluates to `aiScore = 1`, ball `(535, 355)`, velocity `(6, -6)`. -/
theorem scoring_reset :
    (∀ s : GameState, isInt32 (s.ballPosX + s.ballVelX) → isInt32 (s.aiScore + 1) →
      s.ballPosX + s.ballVelX < 0 →
      (moveBall s).aiScore = s.aiScore + 1 ∧
      (moveBall s).playerScore = s.playerScore ∧
      (moveBall s).ballPosX = 535 ∧ (moveBall s).ballPosY = 355 ∧
      (moveBall s).ballVelX = 6) ∧
    (∀ s : GameState, isInt32 (s.ballPosX + s.ballVelX + 10) → isInt32 (s.playerScore + 1) →
      0 ≤ s.ballPosX + s.ballVelX →
      s.ballPosX + s.ballVelX + 10 > 1080 →
      (moveBall s).playerScore = s.playerScore + 1 ∧
      (moveBall s).aiScore = s.aiScore ∧
      (moveBall s).ballPosX = 535 ∧ (moveBall s).ballPosY = 355 ∧
      (moveBall s).ballVelX = -6) ∧
    (Int.tdiv (SCREEN_WIDTH - BALL_SIZE) 2 = 535 ∧
      Int.tdiv (SCREEN_HEIGHT - BALL_SIZE) 2 = 355) ∧
    moveBall ⟨30, 310, 5, 50, -6, -6, 0, 0⟩ = ⟨30, 310, 535, 355, 6, -6, 0, 1⟩ := by
  refine ⟨?_, ?_, by decide, by decide⟩
  · intro s hx hsc h
    rw [moveBall_exit_left s (by rw [wrapInt32_eq hx]; exact h), wrapInt32_eq hsc]
    exact ⟨rfl, rfl, rfl, rfl, rfl⟩
  · intro s hx10 hsc h0 h1
    have hx : isInt32 (s.ballPosX + s.ballVelX) := by
      unfold isInt32 at *; omega
    rw [moveBall_exit_right s (by rw [wrapInt32_eq hx]; omega)
      (by rw [wrapInt32_eq hx, wrapInt32_eq hx10]; exact h1), wrapInt32_eq hsc]
    exact ⟨rfl, rfl, rfl, rfl, rfl⟩

/-- Both exits of C2 (amended) at concrete states: the scenario of the
specification (left exit with the ball inside the player paddle's vertical
range) and a right exit with the ball inside the AI paddle's vertical range. -/
theorem scoring_reset_witness :
    ((moveBall ⟨30, 310, 5, 50, -6, -6, 0, 0⟩).aiScore = 0 + 1 ∧
      (moveBall ⟨30, 310, 5, 50, -6, -6, 0, 0⟩).playerScore = 0 ∧
      (moveBall ⟨30, 310, 5, 50, -6, -6, 0, 0⟩).ballPosX = 535 ∧
      (moveBall ⟨30, 310, 5, 50, -6, -6, 0, 0⟩).ballPosY = 355 ∧
      (moveBall ⟨30, 310, 5, 50, -6, -6, 0, 0⟩).ballVelX = 6) ∧
    ((moveBall ⟨310, 300, 1066, 340, 6, 6, 2, 3⟩).playerScore = 2 + 1 ∧
      (moveBall ⟨310, 300, 1066, 340, 6, 6, 2, 3⟩).aiScore = 3 ∧
      (moveBall ⟨310, 300, 1066, 340, 6, 6, 2, 3⟩).ballPosX = 535 ∧
      (moveBall ⟨310, 300, 1066, 340, 6, 6, 2, 3⟩).ballPosY = 355 ∧
      (moveBall ⟨310, 300, 1066, 340, 6, 6, 2, 3⟩).ballVelX = -6) :=
  ⟨scoring_reset.1 ⟨30, 310, 5, 50, -6, -6, 0, 0⟩ (by decide) (by decide) (by decide),
   scoring_reset.2.1 ⟨310, 300, 1066, 340, 6, 6, 2, 3⟩ (by decide) (by decide) (by decide)
    (by decide)⟩

/-- C4 as stated fails for the most negative velocity.  With
`ballPosY = 355` and `ballVelY = -2147483648` the integrated `y' = -2147483293` is
below `0`, the wall test fires, and `ballVelY = -ballVelY` stores `-2147483648`
again, not `2147483648`, which is no `int`. -/
theorem vertical_velocity_rule_counterexample :
    GameState.valid ⟨310, 310, 535, 355, -6, -2147483648, 0, 0⟩ ∧
    (355 : Int) + (-2147483648) < 0 ∧
    (moveBall ⟨310, 310, 535, 355, -6, -2147483648, 0, 0⟩).ballVelY = -2147483648 ∧
    (moveBall ⟨310, 310, 535, 355, -6, -2147483648, 0, 0⟩).ballVelY ≠ -(-2147483648) := by
  decide

/-- C4, amended (vertical-velocity rule).  For every state in which
`y' = y + vy` and `y' + BALL_SIZE` do not overflow: after one `moveBall` step
`ballVelY` is `-vy` if `y' < 0` or `y' + BALL_SIZE > SCREEN_HEIGHT`, provided `-vy` is
an `int`, and `vy` otherwise; a scoring reset or a paddle hit in the same step
does not change it. -/
theorem vertical_velocity_rule (s : GameState)
    (hy : isInt32 (s.ballPosY + s.ballVelY))
    (hy10 : isInt32 (s.ballPosY + s.ballVelY + BALL_SIZE)) :
    ((s.ballPosY + s.ballVelY < 0 ∨ s.ballPosY + s.ballVelY + BALL_SIZE > SCREEN_HEIGHT) →
      isInt32 (-s.ballVelY) → (moveBall s).ballVelY = -s.ballVelY) ∧
    (¬ (s.ballPosY + s.ballVelY < 0 ∨ s.ballPosY + s.ballVelY + BALL_SIZE > SCREEN_HEIGHT) →
      (moveBall s).ballVelY = s.ballVelY) := by
  have hw := wallFires_iff s hy hy10
  simp only [BALL_SIZE, SCREEN_HEIGHT]
  constructor
  · intro h hv
    rw [moveBall_ballVelY, if_pos (hw.2 h), wrapInt32_eq hv]
  · intro h
    rw [moveBall_ballVelY, if_neg (fun h2 => h (hw.1 h2))]

/-- C4 (amended) at concrete states: a bounce off the top edge in a step
that also scores, and a step without a bounce. -/
theorem vertical_velocity_rule_witness :
    (moveBall ⟨310, 310, 5, 1, -6, -6, 0, 0⟩).ballVelY = 6 ∧
    (moveBall ⟨310, 310, 5, 1, -6, -6, 0, 0⟩).aiScore = 1 ∧
    (moveBall ⟨310, 310, 535, 355, -6, -6, 0, 0⟩).ballVelY = -6 :=
  ⟨(vertical_velocity_rule ⟨310, 310, 5, 1, -6, -6, 0, 0⟩ (by decide) (by decide)).1
      (by decide) (by decide),
   by decide,
   (vertical_velocity_rule ⟨310, 310, 535, 355, -6, -6, 0, 0⟩ (by decide) (by decide)).2
      (by decide)⟩

/-- C1 (paddle clamp invariant).  In every state reachable from the start
state by `handleInput`, `moveBall` and `updateAI` steps, with any events and
any results of `rand()`, both paddle positions are in `[0, 620]`.  Step by
step: from a state with the player paddle in `[0, 620]`, one key-down event
(up, down or any other key) leaves it in `[0, 620]`; from a state with the AI
paddle in `[0, 620]`, one `updateAI` call with any result of `rand()` leaves it
in `[0, 620]`; `moveBall` changes neither paddle.  The start state has both
paddles at `310`. -/
theorem paddle_clamp_invariant :
    (∀ s : GameState, Reachable s →
      (0 ≤ s.playerPaddlePosY ∧ s.playerPaddlePosY ≤ 620) ∧
      (0 ≤ s.aiPaddlePosY ∧ s.aiPaddlePosY ≤ 620)) ∧
    (∀ (q : Bool) (s : GameState) (k : Keysym),
      0 ≤ s.playerPaddlePosY → s.playerPaddlePosY ≤ 620 →
      0 ≤ (handleEvent q s (.SDL_KEYDOWN k)).2.playerPaddlePosY ∧
      (handleEvent q s (.SDL_KEYDOWN k)).2.playerPaddlePosY ≤ 620) ∧
    (∀ (s : GameState) (r : Int), 0 ≤ r →
      0 ≤ s.aiPaddlePosY → s.aiPaddlePosY ≤ 620 →
      0 ≤ (updateAI s r).aiPaddlePosY ∧ (updateAI s r).aiPaddlePosY ≤ 620) ∧
    (∀ s : GameState, (moveBall s).playerPaddlePosY = s.playerPaddlePosY ∧
      (moveBall s).aiPaddlePosY = s.aiPaddlePosY) ∧
    (initState.playerPaddlePosY = 310 ∧ initState.aiPaddlePosY = 310 ∧
      SCREEN_HEIGHT - PADDLE_HEIGHT = 620) := by
  refine ⟨?_, ?_, ?_, moveBall_paddles, by decide⟩
  · intro s h
    have := reachable_paddles h
    simpa only [paddleInRange, paddle_limit] using this
  · intro q s k h0 h1
    have := handleKey_range s k (by simpa only [paddleInRange, paddle_limit] using And.intro h0 h1)
    simpa only [paddleInRange, paddle_limit] using this
  · intro s r hr h0 h1
    have := updateAI_range s r hr
      (by simpa only [paddleInRange, paddle_limit] using And.intro h0 h1)
    simpa only [paddleInRange, paddle_limit] using this

/-- C1 at concrete states: the state after one frame from the start (an up key,
a ball step, an AI step with `rand() = 12`), a down key at the lower limit and
an AI step at the lower limit. -/
theorem paddle_clamp_invariant_witness :
    ((0 ≤ (updateAI (moveBall (handleInput false initState
          [.SDL_KEYDOWN .SDLK_UP]).2) 12).playerPaddlePosY ∧
      (updateAI (moveBall (handleInput false initState
          [.SDL_KEYDOWN .SDLK_UP]).2) 12).playerPaddlePosY ≤ 620) ∧
     (0 ≤ (updateAI (moveBall (handleInput false initState
          [.SDL_KEYDOWN .SDLK_UP]).2) 12).aiPaddlePosY ∧
      (updateAI (moveBall (handleInput false initState
          [.SDL_KEYDOWN .SDLK_UP]).2) 12).aiPaddlePosY ≤ 620)) ∧
    (handleEvent false ⟨610, 310, 535, 355, -6, -6, 0, 0⟩
        (.SDL_KEYDOWN .SDLK_DOWN)).2.playerPaddlePosY ≤ 620 ∧
    (updateAI ⟨310, 617, 535, 709, -6, 6, 0, 0⟩ 7).aiPaddlePosY ≤ 620 :=
  ⟨paddle_clamp_invariant.1 _
      (Reachable.ai 12 (by decide) (Reachable.ball (Reachable.input false _ Reachable.start))),
   (paddle_clamp_invariant.2.1 false ⟨610, 310, 535, 355, -6, -6, 0, 0⟩ .SDLK_DOWN
      (by decide) (by decide)).2,
   (paddle_clamp_invariant.2.2.1 ⟨310, 617, 535, 709, -6, 6, 0, 0⟩ 7
      (by decide) (by decide) (by decide)).2⟩

/-- C8 (input handler contract).  For every state with the player paddle in
`[0, 620]`, and more generally for every state in which the displacement by
`PADDLE_SPEED` does not overflow: a key-down event sets `playerPaddlePosY` to
`max (playerPaddlePosY - 15) 0` for the up key and to
`min (playerPaddlePosY + 15) 620` for the down key.  In every state a key-down
event of any other key and a non-key-down event leave the state unchanged.
A window-close event sets the quit flag and no other event changes it, so
after `handleInput` the flag is set exactly if it was set before or a
window-close event was pending.  `handleInput` changes nothing but
`playerPaddlePosY` and the quit flag: ball position, ball velocity, scores and
`aiPaddlePosY` are as before. -/
theorem input_handler_contract :
    (∀ (q : Bool) (s : GameState), 0 ≤ s.playerPaddlePosY → s.playerPaddlePosY ≤ 620 →
      (handleEvent q s (.SDL_KEYDOWN .SDLK_UP)).2.playerPaddlePosY =
        max (s.playerPaddlePosY - PADDLE_SPEED) 0 ∧
      (handleEvent q s (.SDL_KEYDOWN .SDLK_DOWN)).2.playerPaddlePosY =
        min (s.playerPaddlePosY + PADDLE_SPEED) (SCREEN_HEIGHT - PADDLE_HEIGHT)) ∧
    (∀ (q : Bool) (s : GameState),
      (isInt32 (s.playerPaddlePosY - PADDLE_SPEED) →
        (handleEvent q s (.SDL_KEYDOWN .SDLK_UP)).2.playerPaddlePosY =
          max (s.playerPaddlePosY - PADDLE_SPEED) 0) ∧
      (isInt32 (s.playerPaddlePosY + PADDLE_SPEED) →
        (handleEvent q s (.SDL_KEYDOWN .SDLK_DOWN)).2.playerPaddlePosY =
          min (s.playerPaddlePosY + PADDLE_SPEED) (SCREEN_HEIGHT - PADDLE_HEIGHT))) ∧
    (∀ (q : Bool) (s : GameState),
      (handleEvent q s (.SDL_KEYDOWN .otherKey)).2 = s ∧
      (handleEvent q s .otherEvent).2 = s ∧
      (handleEvent q s .SDL_QUIT).2 = s) ∧
    (PADDLE_SPEED = 15 ∧ SCREEN_HEIGHT - PADDLE_HEIGHT = 620) ∧
    (∀ (q : Bool) (s : GameState) (k : Keysym),
      (handleEvent q s .SDL_QUIT).1 = true ∧
      (handleEvent q s (.SDL_KEYDOWN k)).1 = q ∧
      (handleEvent q s .otherEvent).1 = q) ∧
    (∀ (q : Bool) (s : GameState) (evs : List Event),
      (handleInput q s evs).1 = (q || decide (Event.SDL_QUIT ∈ evs))) ∧
    (∀ (q : Bool) (s : GameState) (evs : List Event),
      (handleInput q s evs).2.ballPosX = s.ballPosX ∧
      (handleInput q s evs).2.ballPosY = s.ballPosY ∧
      (handleInput q s evs).2.ballVelX = s.ballVelX ∧
      (handleInput q s evs).2.ballVelY = s.ballVelY ∧
      (handleInput q s evs).2.playerScore = s.playerScore ∧
      (handleInput q s evs).2.aiScore = s.aiScore ∧
      (handleInput q s evs).2.aiPaddlePosY = s.aiPaddlePosY) := by
  refine ⟨?_, ?_, ?_, by decide, ?_, ?_, ?_⟩
  · intro q s h0 h1
    exact ⟨handleKey_up s (by unfold isInt32; omega),
      handleKey_down s (by unfold isInt32; omega)⟩
  · intro q s
    exact ⟨fun h => handleKey_up s h, fun h => handleKey_down s h⟩
  · intro q s
    exact ⟨rfl, rfl, rfl⟩
  · intro q s k
    exact ⟨rfl, rfl, rfl⟩
  · intro q s evs
    exact handleInput_quit evs q s
  · intro q s evs
    rw [handleInput_frame]
    exact ⟨rfl, rfl, rfl, rfl, rfl, rfl, rfl⟩

/-- C8 at concrete states: an up key clamped at `0`, a down key clamped at
`620`, and an up key in mid-range. -/
theorem input_handler_contract_witness :
    (handleEvent false ⟨10, 310, 535, 355, -6, -6, 0, 0⟩
        (.SDL_KEYDOWN .SDLK_UP)).2.playerPaddlePosY = 0 ∧
    (handleEvent false ⟨610, 310, 535, 355, -6, -6, 0, 0⟩
        (.SDL_KEYDOWN .SDLK_DOWN)).2.playerPaddlePosY = 620 ∧
    (handleEvent false ⟨310, 310, 535, 355, -6, -6, 0, 0⟩
        (.SDL_KEYDOWN .SDLK_UP)).2.playerPaddlePosY = 295 :=
  ⟨((input_handler_contract.1 false ⟨10, 310, 535, 355, -6, -6, 0, 0⟩
      (by decide) (by decide)).1).trans (by decide),
   ((input_handler_contract.1 false ⟨610, 310, 535, 355, -6, -6, 0, 0⟩
      (by decide) (by decide)).2).trans (by decide),
   ((input_handler_contract.2.1 false ⟨310, 310, 535, 355, -6, -6, 0, 0⟩).1
      (by decide)).trans (by decide)⟩

/-! ## The AI controller -/

/-- C6 as stated fails twice.  Its rule for the new paddle position fails
where the arithmetic overflows: with `aiPaddlePosY = 2147483647`, `ballPosY = 0`
and `rand() = 0` the ball is above the centre `aiPaddlePosY + 50`, but that sum
overflows, `updateAI` takes the branch that moves the paddle down and stores
`-2147483648`, not `max (aiPaddlePosY - 1) 0 = 2147483646`.  Its closing bound
fails outside the clamp range: with `aiPaddlePosY = 1000` and `ballPosY = 2000` the
call with `rand() = 0` adds the step `1` and clamps to `620`, a move of `380`. -/
theorem ai_step_rule_counterexample :
    (GameState.valid ⟨310, 2147483647, 535, 0, -6, -6, 0, 0⟩ ∧ (0 : Int) ≤ 0 ∧
      (0 : Int) < 2147483647 + 50 ∧
      (updateAI ⟨310, 2147483647, 535, 0, -6, -6, 0, 0⟩ 0).aiPaddlePosY = -2147483648 ∧
      (updateAI ⟨310, 2147483647, 535, 0, -6, -6, 0, 0⟩ 0).aiPaddlePosY ≠
        max (2147483647 - aiStep 0) 0) ∧
    (GameState.valid ⟨310, 1000, 535, 2000, -6, -6, 0, 0⟩ ∧ aiStep 0 = 1 ∧
      (updateAI ⟨310, 1000, 535, 2000, -6, -6, 0, 0⟩ 0).aiPaddlePosY = 620 ∧
      ¬ |(updateAI ⟨310, 1000, 535, 2000, -6, -6, 0, 0⟩ 0).aiPaddlePosY - 1000| ≤ 8) := by
  decide

/-- C6, amended (AI step rule).  For every non-negative result `r` of `rand()`
the step `k = r % 8 + 1` is in `[1, 8]`.  For every state in which the paddle
centre `aiPaddlePosY + PADDLE_HEIGHT / 2` does not overflow, one `updateAI` call
yields `min (aiPaddlePosY + k) 620` when `ballPosY` is greater than the centre and
`aiPaddlePosY + k` does not overflow, `max (aiPaddlePosY - k) 0` when `ballPosY` is
less than the centre and `aiPaddlePosY - k` does not overflow, and makes no call
of `rand()` and leaves the state as it is when `ballPosY = aiPaddlePosY + 50`.  If
`aiPaddlePosY` is in `[-8, 628]`, in particular in the clamp range `[0, 620]`, the
paddle moves by at most `8`. -/
theorem ai_step_rule (s : GameState) (r : Int) (hr : 0 ≤ r) :
    (aiStep r = r % 8 + 1 ∧ 1 ≤ aiStep r ∧ aiStep r ≤ 8) ∧
    (isInt32 (s.aiPaddlePosY + Int.tdiv PADDLE_HEIGHT 2) →
      (s.ballPosY > s.aiPaddlePosY + Int.tdiv PADDLE_HEIGHT 2 →
        isInt32 (s.aiPaddlePosY + aiStep r) →
        (updateAI s r).aiPaddlePosY = min (s.aiPaddlePosY + aiStep r) 620) ∧
      (s.ballPosY < s.aiPaddlePosY + Int.tdiv PADDLE_HEIGHT 2 →
        isInt32 (s.aiPaddlePosY - aiStep r) →
        (updateAI s r).aiPaddlePosY = max (s.aiPaddlePosY - aiStep r) 0) ∧
      (s.ballPosY = s.aiPaddlePosY + 50 →
        updateAIDraws s = 0 ∧ ∀ r2 : Int, updateAI s r2 = s)) ∧
    (-8 ≤ s.aiPaddlePosY → s.aiPaddlePosY ≤ 628 →
      |(updateAI s r).aiPaddlePosY - s.aiPaddlePosY| ≤ 8) := by
  have hk := aiStep_bounds r hr
  refine ⟨⟨?_, hk.1, hk.2⟩, ?_, ?_⟩
  · unfold aiStep
    rw [Int.tmod_eq_emod hr (by decide)]
  · rw [half_paddle]
    intro hc
    refine ⟨fun h hs => updateAI_down s r hc hs h, fun h hs => updateAI_up s r hc hs h, ?_⟩
    intro h
    refine ⟨?_, fun r2 => updateAI_level s r2 hc h⟩
    simp only [updateAIDraws, half_paddle, wrapInt32_eq hc]
    rw [if_neg (by omega), if_neg (by omega)]
  · intro h0 h1
    have hc : isInt32 (s.aiPaddlePosY + 50) := by unfold isInt32; omega
    rw [abs_le]
    rcases lt_trichotomy s.ballPosY (s.aiPaddlePosY + 50) with hlt | heq | hgt
    · rw [updateAI_up s r hc (by unfold isInt32; omega) hlt]; omega
    · rw [updateAI_level s r hc heq]; omega
    · rw [updateAI_down s r hc (by unfold isInt32; omega) hgt]; omega

/-- C6 (amended) at concrete states: a clamped step down, a clamped step up,
no movement and no draw at the centre, and the bound on the movement. -/
theorem ai_step_rule_witness :
    (updateAI ⟨310, 617, 535, 709, -6, 6, 0, 0⟩ 13).aiPaddlePosY = min (617 + aiStep 13) 620 ∧
    (updateAI ⟨310, 2, 535, 7, -6, -6, 0, 0⟩ 13).aiPaddlePosY = max (2 - aiStep 13) 0 ∧
    updateAIDraws ⟨310, 305, 535, 355, -6, -6, 0, 0⟩ = 0 ∧
    updateAI ⟨310, 305, 535, 355, -6, -6, 0, 0⟩ 13 = ⟨310, 305, 535, 355, -6, -6, 0, 0⟩ ∧
    |(updateAI ⟨310, 617, 535, 709, -6, 6, 0, 0⟩ 13).aiPaddlePosY - 617| ≤ 8 :=
  ⟨((ai_step_rule ⟨310, 617, 535, 709, -6, 6, 0, 0⟩ 13 (by decide)).2.1 (by decide)).1
      (by decide) (by decide),
   ((ai_step_rule ⟨310, 2, 535, 7, -6, -6, 0, 0⟩ 13 (by decide)).2.1 (by decide)).2.1
      (by decide) (by decide),
   (((ai_step_rule ⟨310, 305, 535, 355, -6, -6, 0, 0⟩ 13 (by decide)).2.1 (by decide)).2.2
      (by decide)).1,
   (((ai_step_rule ⟨310, 305, 535, 355, -6, -6, 0, 0⟩ 13 (by decide)).2.1 (by decide)).2.2
      (by decide)).2 13,
   (ai_step_rule ⟨310, 617, 535, 709, -6, 6, 0, 0⟩ 13 (by decide)).2.2
      (by decide) (by decide)⟩

theorem updateAI_ballPosY (s : GameState) (r : Int) :
    (updateAI s r).ballPosY = s.ballPosY := by
  rw [updateAI_frame]

theorem aiTrace_head (s : GameState) (rs : List Int) :
    (aiTrace s rs).head? = some s.aiPaddlePosY := by
  cases rs <;> rfl

theorem aiTrace_range (rs : List Int) : ∀ s : GameState,
    paddleInRange s.aiPaddlePosY → (∀ r ∈ rs, 0 ≤ r) →
    ∀ y ∈ aiTrace s rs, 0 ≤ y ∧ y ≤ 620 := by
  induction rs with
  | nil =>
    intro s h _ y hy
    simp only [aiTrace, List.mem_singleton] at hy
    subst hy
    simpa only [paddleInRange, paddle_limit] using h
  | cons r rs ih =>
    intro s h hrs y hy
    simp only [aiTrace, List.mem_cons] at hy
    rcases hy with hy | hy
    · subst hy
      simpa only [paddleInRange, paddle_limit] using h
    · exact ih (updateAI s r)
        (updateAI_range s r (hrs r (List.mem_cons_self r rs)) h)
        (fun r2 h2 => hrs r2 (List.mem_cons_of_mem r h2)) y hy

theorem aiTrace_chain (rs : List Int) : ∀ s : GameState,
    paddleInRange s.aiPaddlePosY → (∀ r ∈ rs, 0 ≤ r) → ballAboveAtEachCall s rs →
    List.Chain' (fun a b => b ≤ a) (aiTrace s rs) := by
  induction rs with
  | nil => intro s _ _ _; simp [aiTrace]
  | cons r rs ih =>
    intro s h hrs hab
    have hr := hrs r (List.mem_cons_self r rs)
    simp only [aiTrace]
    rw [List.chain'_cons']
    refine ⟨?_, ih (updateAI s r) (updateAI_range s r hr h)
      (fun r2 h2 => hrs r2 (List.mem_cons_of_mem r h2)) hab.2⟩
    intro y hy
    rw [aiTrace_head] at hy
    simp only [Option.mem_def, Option.some.injEq] at hy
    subst hy
    have hk := aiStep_bounds r hr
    have h1 := hab.1
    have h2 := h.1
    have h3 := h.2
    rw [paddle_limit] at h3
    rw [half_paddle] at h1
    rw [updateAI_up s r (by unfold isInt32; omega) (by unfold isInt32; omega) h1]
    omega

theorem ballAbove_of_lt_half (rs : List Int) : ∀ s : GameState,
    paddleInRange s.aiPaddlePosY → (∀ r ∈ rs, 0 ≤ r) →
    s.ballPosY < Int.tdiv PADDLE_HEIGHT 2 → ballAboveAtEachCall s rs := by
  induction rs with
  | nil => intro s _ _ _; trivial
  | cons r rs ih =>
    intro s h hrs hb
    refine ⟨?_, ih (updateAI s r) (updateAI_range s r (hrs r (List.mem_cons_self r rs)) h)
      (fun r2 h2 => hrs r2 (List.mem_cons_of_mem r h2)) ?_⟩
    · have := h.1
      omega
    · rw [updateAI_ballPosY]; exact hb

/-- C7 as stated fails.  With `aiPaddlePosY = 102` and the ball fixed at
`ballPosY = 151`, above the paddle centre `152`, the `rand()` results `7, 0` give
the paddle positions `102, 94, 95`: after the first step the centre `144` is
above the ball and the paddle turns back down. -/
theorem ai_tracking_counterexample :
    ((0 : Int) ≤ 102 ∧ (102 : Int) ≤ 620) ∧ (151 : Int) < 102 + 50 ∧
    (∀ r ∈ [(7 : Int), 0], 0 ≤ r) ∧
    aiTrace ⟨310, 102, 535, 151, -6, -6, 0, 0⟩ [7, 0] = [102, 94, 95] ∧
    ¬ List.Chain' (fun a b => b ≤ a) (aiTrace ⟨310, 102, 535, 151, -6, -6, 0, 0⟩ [7, 0]) := by
  have e : aiTrace ⟨310, 102, 535, 151, -6, -6, 0, 0⟩ [7, 0] = [102, 94, 95] := by decide
  refine ⟨by decide, by decide, by decide, e, ?_⟩
  rw [e]
  simp

/-- C7, amended.  For every starting `aiPaddlePosY` in `[0, 620]`, every fixed
`ballPosY` and every sequence of non-negative `rand()` results, none of the
`aiPaddlePosY` values produced by repeated `updateAI` calls is below `0` (or
above `620`); the sequence is non-increasing if the ball is above the paddle
centre at each of the calls, and this is the case for the whole run when
`ballPosY < PADDLE_HEIGHT / 2 = 50`. -/
theorem ai_tracking (s : GameState) (rs : List Int)
    (h0 : 0 ≤ s.aiPaddlePosY) (h1 : s.aiPaddlePosY ≤ 620) (hrs : ∀ r ∈ rs, 0 ≤ r) :
    (∀ y ∈ aiTrace s rs, 0 ≤ y ∧ y ≤ 620) ∧
    (ballAboveAtEachCall s rs → List.Chain' (fun a b => b ≤ a) (aiTrace s rs)) ∧
    (s.ballPosY < Int.tdiv PADDLE_HEIGHT 2 →
      List.Chain' (fun a b => b ≤ a) (aiTrace s rs)) := by
  have h : paddleInRange s.aiPaddlePosY := by
    simpa only [paddleInRange, paddle_limit] using And.intro h0 h1
  exact ⟨aiTrace_range rs s h hrs, aiTrace_chain rs s h hrs,
    fun hb => aiTrace_chain rs s h hrs (ballAbove_of_lt_half rs s h hrs hb)⟩

/-- C7 (amended) at a concrete run: the ball fixed at `y = 7`, the paddle
starting at `20`, and the `rand()` results `7, 3, 7, 0` give the positions
`20, 12, 8, 0, 0`. -/
theorem ai_tracking_witness :
    aiTrace ⟨310, 20, 535, 7, -6, -6, 0, 0⟩ [7, 3, 7, 0] = [20, 12, 8, 0, 0] ∧
    List.Chain' (fun a b => b ≤ a) (aiTrace ⟨310, 20, 535, 7, -6, -6, 0, 0⟩ [7, 3, 7, 0]) ∧
    (∀ y ∈ aiTrace ⟨310, 20, 535, 7, -6, -6, 0, 0⟩ [7, 3, 7, 0], 0 ≤ y ∧ y ≤ 620) :=
  ⟨by decide,
   (ai_tracking ⟨310, 20, 535, 7, -6, -6, 0, 0⟩ [7, 3, 7, 0]
      (by decide) (by decide) (by decide)).2.2 (by decide),
   (ai_tracking ⟨310, 20, 535, 7, -6, -6, 0, 0⟩ [7, 3, 7, 0]
      (by decide) (by decide) (by decide)).1⟩

/-! ## Reachable ball states -/

/-- C9 (constant speed).  In every state reachable from the start state by
`handleInput`, `moveBall` and `updateAI` steps, `|ballVelX| = 6` and
`|ballVelY| = 6`: neither speed ever changes its magnitude. -/
theorem constant_speed (s : GameState) (h : Reachable s) :
    |s.ballVelX| = 6 ∧ |s.ballVelY| = 6 := by
  obtain ⟨hvx, hvy, -⟩ := reachable_ballInv h
  constructor
  · rcases hvx with e | e <;> rw [e] <;> decide
  · rcases hvy with e | e <;> rw [e] <;> decide

/-- C9 at the state after one frame from the start. -/
theorem constant_speed_witness :
    |(updateAI (moveBall (handleInput false initState []).2) 3).ballVelX| = 6 ∧
    |(updateAI (moveBall (handleInput false initState []).2) 3).ballVelY| = 6 :=
  constant_speed _
    (Reachable.ai 3 (by decide) (Reachable.ball (Reachable.input false [] Reachable.start)))

/-- C10 (ball containment).  For every state `s` reachable from the start
state by `handleInput`, `moveBall` and `updateAI` steps, the state after a
`moveBall` step has `0 ≤ ballPosX ≤ 1070` and `-5 ≤ ballPosY ≤ 715`, and where its
`ballPosY` is outside `[0, 710]` its vertical velocity points back into the
arena; the same holds of `s` itself.  If the wall test fires in that step, it
does not fire in the next `moveBall` step, with or without the `updateAI` and
`handleInput` calls the main loop makes in between. -/
theorem ball_containment (s : GameState) (h : Reachable s) :
    (0 ≤ (moveBall s).ballPosX ∧ (moveBall s).ballPosX ≤ 1070 ∧
      -5 ≤ (moveBall s).ballPosY ∧ (moveBall s).ballPosY ≤ 715) ∧
    ((moveBall s).ballPosY < 0 → 0 < (moveBall s).ballVelY) ∧
    ((moveBall s).ballPosY > 710 → (moveBall s).ballVelY < 0) ∧
    (wallFires s → ¬ wallFires (moveBall s)) ∧
    (wallFires s → ∀ (r : Int) (q : Bool) (evs : List Event),
      ¬ wallFires (handleInput q (updateAI (moveBall s) r) evs).2) ∧
    ((0 ≤ s.ballPosX ∧ s.ballPosX ≤ 1070 ∧ -5 ≤ s.ballPosY ∧ s.ballPosY ≤ 715) ∧
      (s.ballPosY < 0 → 0 < s.ballVelY) ∧ (s.ballPosY > 710 → s.ballVelY < 0)) := by
  have hi := reachable_ballInv h
  have hd := ballInv_no_double_bounce s hi
  obtain ⟨-, -, kx0, kx1, ky0, ky1, -, klo, khi⟩ := ballInv_moveBall s hi
  obtain ⟨-, -, hx0, hx1, hy0, hy1, -, hlo, hhi⟩ := hi
  refine ⟨⟨kx0, kx1, ky0, ky1⟩, ?_, ?_, ?_, ?_, ⟨hx0, hx1, hy0, hy1⟩, ?_, ?_⟩
  · intro hy; have := klo hy; omega
  · intro hy; have := khi hy; omega
  · intro hw
    rcases hd with hd | hd
    · exact hd
    · exact absurd hw hd
  · intro hw r q evs
    rw [wallFires_handleInput, wallFires_updateAI]
    rcases hd with hd | hd
    · exact hd
    · exact absurd hw hd
  · intro hy; have := hlo hy; omega
  · intro hy; have := hhi hy; omega

/-- C10 along the first descent from the start state: after 60 ball steps the
ball is at `y = -5` with the vertical velocity turned downwards into the
arena, the wall test has fired in the 60th step, and it does not fire in
the 61st. -/
theorem ball_containment_witness :
    wallFires ⟨310, 310, 181, 1, -6, -6, 0, 0⟩ ∧
    (moveBall ⟨310, 310, 181, 1, -6, -6, 0, 0⟩).ballPosY = -5 ∧
    0 < (moveBall ⟨310, 310, 181, 1, -6, -6, 0, 0⟩).ballVelY ∧
    ¬ wallFires (moveBall ⟨310, 310, 181, 1, -6, -6, 0, 0⟩) :=
  have hr : Reachable ⟨310, 310, 181, 1, -6, -6, 0, 0⟩ := by
    have e := first_descent 59 (by decide)
    have step : ∀ n : Nat, Reachable (moveBall^[n] initState) := by
      intro n
      induction n with
      | zero => exact Reachable.start
      | succ n ih =>
        rw [Function.iterate_succ_apply']
        exact Reachable.ball ih
    have h59 := step 59
    rw [e] at h59
    exact h59
  ⟨by decide, by decide, (ball_containment _ hr).2.1 (by decide),
   (ball_containment _ hr).2.2.2.1 (by decide)⟩

end Pong
